import Mathlib

/-
Verification of the Drift-Shield fraud-detection serving control plane.

Each Python module of the service is shallowly embedded as executable Lean
definitions over ℚ (machine floats are modelled as exact rationals), lists
(numpy arrays), and explicit state records (mutable objects).  File-system
effects are modelled as explicit traces of `FsOp` operations, and the
results of scipy/numpy statistics that the claims do not constrain are
abstracted as function parameters.
-/

/-- Ceiling of a rational as an integer, written with explicit integer
division so that it evaluates; mirrors `np.ceil` on an exact value.
For `q = num/den` with `den > 0`, `⌈q⌉ = (num + den - 1) ediv den`. -/
def qceil (q : ℚ) : ℤ := (q.num + (q.den : ℤ) - 1) / (q.den : ℤ)

theorem le_qceil (q : ℚ) : q ≤ (qceil q : ℚ) := by
  have hd : (0 : ℤ) < (q.den : ℤ) := by exact_mod_cast q.pos
  have h1 := Int.ediv_add_emod (q.num + (q.den : ℤ) - 1) (q.den : ℤ)
  have h2 := Int.emod_lt_of_pos (q.num + (q.den : ℤ) - 1) hd
  have h3 := Int.emod_nonneg (q.num + (q.den : ℤ) - 1) (by omega : ((q.den : ℤ) ≠ 0))
  have key : q.num ≤ (q.den : ℤ) * qceil q := by
    unfold qceil
    omega
  have hden : (0 : ℚ) < ((q.den : ℕ) : ℚ) := by exact_mod_cast q.pos
  nth_rewrite 1 [← Rat.num_div_den q]
  rw [div_le_iff₀ hden]
  calc (q.num : ℚ) ≤ (((q.den : ℤ) * qceil q : ℤ) : ℚ) := by exact_mod_cast key
    _ = (qceil q : ℚ) * ((q.den : ℕ) : ℚ) := by push_cast; ring

theorem qceil_lt_add_one (q : ℚ) : (qceil q : ℚ) < q + 1 := by
  have hd : (0 : ℤ) < (q.den : ℤ) := by exact_mod_cast q.pos
  have h1 := Int.ediv_add_emod (q.num + (q.den : ℤ) - 1) (q.den : ℤ)
  have h3 := Int.emod_nonneg (q.num + (q.den : ℤ) - 1) (by omega : ((q.den : ℤ) ≠ 0))
  have key : (q.den : ℤ) * qceil q < q.num + (q.den : ℤ) := by
    unfold qceil
    omega
  have hden : (0 : ℚ) < ((q.den : ℕ) : ℚ) := by exact_mod_cast q.pos
  nth_rewrite 2 [← Rat.num_div_den q]
  have hsum : (q.num : ℚ) / ((q.den : ℕ) : ℚ) + 1
      = ((q.num : ℚ) + ((q.den : ℕ) : ℚ)) / ((q.den : ℕ) : ℚ) := by
    field_simp
  rw [hsum, lt_div_iff₀ hden]
  calc (qceil q : ℚ) * ((q.den : ℕ) : ℚ)
      = (((q.den : ℤ) * qceil q : ℤ) : ℚ) := by push_cast; ring
    _ < ((q.num + (q.den : ℤ) : ℤ) : ℚ) := by exact_mod_cast key
    _ = (q.num : ℚ) + ((q.den : ℕ) : ℚ) := by push_cast; ring

/-- Clamp `x` into `[lo, hi]`; mirrors `np.clip(x, lo, hi)`. -/
def np_clip (x lo hi : ℚ) : ℚ := min (max x lo) hi

theorem np_clip_mem (x lo hi : ℚ) (h : lo ≤ hi) :
    lo ≤ np_clip x lo hi ∧ np_clip x lo hi ≤ hi := by
  unfold np_clip
  constructor
  · exact le_min (le_max_right x lo) h
  · exact min_le_right _ _

/-- Arithmetic mean of a list of rationals; mirrors `np.mean`. -/
def np_mean (l : List ℚ) : ℚ := l.sum / (l.length : ℚ)

/- ----------------------------------------------------------------
src/fraud_service/uncertainty/conformal.py
---------------------------------------------------------------- -/

/-- `ConformalCalib` dataclass: `alpha`, `qhat`, `labels` (labels[0] =
"non_fraud", labels[1] = "fraud"). -/
structure ConformalCalib where
  alpha : ℚ
  qhat : ℚ
  labels : List String
deriving DecidableEq

/-- The level `q = min(ceil((n+1)*(1-alpha))/n, 1.0)` computed inside
`_conformal_quantile`. -/
def q_level (n : ℕ) (alpha : ℚ) : ℚ :=
  min (((qceil (((n : ℚ) + 1) * (1 - alpha))) : ℚ) / (n : ℚ)) 1

/-- `np.quantile(scores, q, method="higher")`: sort ascending, take the
element at the ceiling of the virtual index `q * (n - 1)`. -/
def np_quantile_higher (scores : List ℚ) (q : ℚ) : ℚ :=
  (List.insertionSort (· ≤ ·) scores).getD
    (qceil (q * ((scores.length : ℚ) - 1))).toNat 0

/-- `_conformal_quantile(scores, alpha)` from conformal.py. -/
def conformal_quantile (scores : List ℚ) (alpha : ℚ) : ℚ :=
  np_quantile_higher scores (q_level scores.length alpha)

/-- Non-conformity scores `1 - P(true label)` computed by
`fit_split_conformal`; a calibration row is its pair of class
probabilities `(p0, p1)` plus a 0/1 label (`true` = class 1). -/
def conformal_scores (probas_calib : List (ℚ × ℚ)) (y_calib : List Bool) : List ℚ :=
  (probas_calib.zip y_calib).map (fun py => 1 - (if py.2 then py.1.2 else py.1.1))

/-- `fit_split_conformal(probas_calib, y_calib, alpha, labels)`. -/
def fit_split_conformal (probas_calib : List (ℚ × ℚ)) (y_calib : List Bool)
    (alpha : ℚ) (labels : List String) : ConformalCalib :=
  { alpha := alpha
    qhat := conformal_quantile (conformal_scores probas_calib y_calib) alpha
    labels := labels }

/-- `prediction_set(calib, probas_one)`: keep label `i` iff
`probas_one[i] >= 1 - qhat`. -/
def prediction_set (calib : ConformalCalib) (probas_one : List ℚ) : List String :=
  ((calib.labels.zip probas_one).filter
    (fun pr => decide (1 - calib.qhat ≤ pr.2))).map Prod.fst

/-- C4: for a probability vector indexed by the labels, `prediction_set`
returns exactly those labels whose probability is at least `1 - qhat`, in
label order (a sublist of the labels); with two labels its size is at most
2 (hence in {0, 1, 2}). -/
theorem claim_C4_prediction_set (c : ConformalCalib) (p : List ℚ)
    (hlen : c.labels.length = p.length) :
    (prediction_set c p).Sublist c.labels
    ∧ (∀ name : String, name ∈ prediction_set c p ↔
        ∃ i : ℕ, ∃ hi : i < c.labels.length, ∃ hp : i < p.length,
          c.labels.get ⟨i, hi⟩ = name ∧ 1 - c.qhat ≤ p.get ⟨i, hp⟩)
    ∧ (c.labels.length = 2 → (prediction_set c p).length ≤ 2) := by
  have hsub : (prediction_set c p).Sublist c.labels := by
    have h1 : ((c.labels.zip p).filter
        (fun pr => decide (1 - c.qhat ≤ pr.2))).Sublist (c.labels.zip p) :=
      List.filter_sublist _
    have h2 := h1.map Prod.fst
    rwa [List.map_fst_zip _ _ hlen.le] at h2
  refine ⟨hsub, ?_, ?_⟩
  · intro name
    constructor
    · intro hm
      rcases List.mem_map.mp hm with ⟨pr, hpr, hfst⟩
      rcases List.mem_filter.mp hpr with ⟨hz, hdec⟩
      rcases List.mem_iff_get.mp hz with ⟨j, hj⟩
      have hjl : (j : ℕ) < c.labels.length := by
        have := j.isLt
        simp [List.length_zip] at this
        omega
      have hjp : (j : ℕ) < p.length := by
        have := j.isLt
        simp [List.length_zip] at this
        omega
      refine ⟨j, hjl, hjp, ?_, ?_⟩
      · have hget := @List.get_zip _ _ c.labels p j
        rw [hget] at hj
        rw [← hj] at hfst
        simpa using hfst
      · have hget := @List.get_zip _ _ c.labels p j
        rw [hget] at hj
        have : 1 - c.qhat ≤ pr.2 := of_decide_eq_true hdec
        rw [← hj] at this
        simpa using this
    · rintro ⟨i, hi, hp, hname, hle⟩
      have hiz : i < (c.labels.zip p).length := by
        simp [List.length_zip]
        omega
      refine List.mem_map.mpr ⟨(c.labels.zip p).get ⟨i, hiz⟩, ?_, ?_⟩
      · refine List.mem_filter.mpr ⟨List.get_mem _ _ _, ?_⟩
        have hget := @List.get_zip _ _ c.labels p ⟨i, hiz⟩
        rw [hget]
        simpa using hle
      · have hget := @List.get_zip _ _ c.labels p ⟨i, hiz⟩
        rw [hget]
        simpa using hname
  · intro h2
    have := hsub.length_le
    omega

theorem claim_C4_witness :
    (prediction_set ⟨mkRat 1 10, mkRat 1 5, ["non_fraud", "fraud"]⟩
      [mkRat 9 10, mkRat 1 10]).Sublist ["non_fraud", "fraud"] :=
  (claim_C4_prediction_set ⟨mkRat 1 10, mkRat 1 5, ["non_fraud", "fraud"]⟩
    [mkRat 9 10, mkRat 1 10] (by decide)).1

/-- Empirical CDF of the sample `scores` evaluated at `s`, compared against
level `q`: true iff at least a `q` fraction of the scores are `≤ s`. -/
def empirical_cdf_ge (scores : List ℚ) (q s : ℚ) : Bool :=
  decide (q * (scores.length : ℚ) ≤ (scores.countP (fun x => decide (x ≤ s)) : ℚ))

/-- Second definition following the spec's words (for comparison with the
code's `np_quantile_higher`): the smallest sample score whose empirical CDF
reaches `q`, i.e. the first element of the ascending sort satisfying
`empirical_cdf_ge`. -/
def spec_upper_quantile (scores : List ℚ) (q : ℚ) : ℚ :=
  match (List.insertionSort (· ≤ ·) scores).find? (empirical_cdf_ge scores q) with
  | some s => s
  | none => 0

theorem sorted_countP_le (l : List ℚ) (hs : List.Sorted (· ≤ ·) l)
    (j : ℕ) (hj : j < l.length) :
    j + 1 ≤ l.countP (fun s => decide (s ≤ l.get ⟨j, hj⟩)) := by
  set x := l.get ⟨j, hj⟩ with hx
  have hsplit := List.take_append_drop (j + 1) l
  have hcnt : l.countP (fun s => decide (s ≤ x))
      = (l.take (j + 1)).countP (fun s => decide (s ≤ x))
        + (l.drop (j + 1)).countP (fun s => decide (s ≤ x)) := by
    conv_lhs => rw [← hsplit]
    exact List.countP_append _ _ _
  have htake : (l.take (j + 1)).countP (fun s => decide (s ≤ x))
      = (l.take (j + 1)).length := by
    rw [List.countP_eq_length]
    intro a ha
    rcases List.mem_iff_get.mp ha with ⟨i, hi⟩
    have hil : (i : ℕ) < l.length := by
      have := i.isLt
      simp [List.length_take] at this
      omega
    have hij : (i : ℕ) ≤ j := by
      have := i.isLt
      simp [List.length_take] at this
      omega
    have hgt : (l.take (j + 1)).get i = l.get ⟨i, hil⟩ := by
      simp [List.get_take']
    rw [hgt] at hi
    rcases lt_or_eq_of_le hij with hlt | heq
    · have := hs.rel_get_of_lt (a := ⟨i, hil⟩) (b := ⟨j, hj⟩) (by simpa using hlt)
      rw [hi] at this
      simpa [← hx] using this
    · have hax : a = x := by
        rw [hx, ← hi]
        exact congrArg l.get (Fin.ext heq)
      simp [hax]
  have hlen : (l.take (j + 1)).length = j + 1 := by
    simp [List.length_take]
    omega
  omega

theorem find?_le_of_sorted (l : List ℚ) (p : ℚ → Bool)
    (hs : List.Sorted (· ≤ ·) l) (j : ℕ) (hj : j < l.length)
    (hp : p (l.get ⟨j, hj⟩) = true) :
    ∃ s, l.find? p = some s ∧ s ≤ l.get ⟨j, hj⟩ := by
  induction l generalizing j with
  | nil => exact absurd hj (by simp)
  | cons a t ih =>
    by_cases hpa : p a = true
    · refine ⟨a, by simp [List.find?_cons, hpa], ?_⟩
      rcases Nat.eq_zero_or_pos j with h0 | hpos
      · subst h0
        simp
      · have := hs.rel_get_of_lt (a := ⟨0, by simp⟩) (b := ⟨j, hj⟩) (by simpa using hpos)
        simpa using this
    · have hj0 : j ≠ 0 := by
        intro h0
        subst h0
        simp at hp
        exact hpa hp
      obtain ⟨j', rfl⟩ : ∃ j', j = j' + 1 := ⟨j - 1, by omega⟩
      have hj' : j' < t.length := by simpa using hj
      have hpt : p (t.get ⟨j', hj'⟩) = true := by simpa using hp
      rcases ih hs.of_cons j' hj' hpt with ⟨s, hfind, hle⟩
      refine ⟨s, ?_, by simpa using hle⟩
      rw [List.find?_cons]
      simp [hpa, hfind]

/-- C5 counterexample: with calibration scores `[0, 1/4, 1/2, 3/4]` (all
four rows labelled class 1) and `α = 1/2`, `q_level = ⌈5·(1/2)⌉/4 = 3/4`;
the code's `np.quantile(..., method="higher")` takes the sorted element at
index `⌈3/4·3⌉ = 3`, giving `qhat = 3/4`, while the smallest score whose
empirical CDF reaches `3/4` — the claim's characterization — is `1/2`. -/
theorem claim_C5_counterexample :
    (fit_split_conformal
        [(1, 1), (mkRat 1 4, mkRat 3 4), (mkRat 1 2, mkRat 1 2), (mkRat 3 4, mkRat 1 4)]
        [true, true, true, true] (mkRat 1 2) ["non_fraud", "fraud"]).qhat = mkRat 3 4
    ∧ spec_upper_quantile
        (conformal_scores
          [(1, 1), (mkRat 1 4, mkRat 3 4), (mkRat 1 2, mkRat 1 2), (mkRat 3 4, mkRat 1 4)]
          [true, true, true, true])
        (q_level 4 (mkRat 1 2)) = mkRat 1 2
    ∧ (mkRat 3 4 : ℚ) ≠ mkRat 1 2 := by
  refine ⟨?_, ?_, ?_⟩ <;> with_unfolding_all decide

/-- C5 (amended): `fit_split_conformal` computes scores `1 - p(true label)`
and sets `qhat` to the sorted score at index `⌈q_level·(n-1)⌉` — numpy's
"higher" interpolation — which is a member of the score sample whose
empirical CDF reaches `q_level`, and which is an upper bound for (but, as
the counterexample shows, not always equal to) the smallest such score. -/
theorem claim_C5_quantile (probas_calib : List (ℚ × ℚ)) (y_calib : List Bool)
    (alpha : ℚ) (labels : List String)
    (hn : 0 < (conformal_scores probas_calib y_calib).length)
    (ha0 : 0 < alpha) (ha1 : alpha < 1) :
    (fit_split_conformal probas_calib y_calib alpha labels).alpha = alpha
    ∧ (fit_split_conformal probas_calib y_calib alpha labels).labels = labels
    ∧ (fit_split_conformal probas_calib y_calib alpha labels).qhat
        = (List.insertionSort (· ≤ ·) (conformal_scores probas_calib y_calib)).getD
            (qceil (q_level (conformal_scores probas_calib y_calib).length alpha
              * (((conformal_scores probas_calib y_calib).length : ℚ) - 1))).toNat 0
    ∧ (fit_split_conformal probas_calib y_calib alpha labels).qhat
        ∈ conformal_scores probas_calib y_calib
    ∧ empirical_cdf_ge (conformal_scores probas_calib y_calib)
        (q_level (conformal_scores probas_calib y_calib).length alpha)
        (fit_split_conformal probas_calib y_calib alpha labels).qhat = true
    ∧ spec_upper_quantile (conformal_scores probas_calib y_calib)
        (q_level (conformal_scores probas_calib y_calib).length alpha)
        ≤ (fit_split_conformal probas_calib y_calib alpha labels).qhat := by
  set scores := conformal_scores probas_calib y_calib with hscores
  set n := scores.length with hnn
  set q := q_level n alpha with hq
  set sorted := List.insertionSort (· ≤ ·) scores with hsorted
  have hperm : sorted.Perm scores := List.perm_insertionSort _ _
  have hsortedlen : sorted.length = n := by rw [hperm.length_eq]
  have hsort : List.Sorted (· ≤ ·) sorted := List.sorted_insertionSort _ _
  -- bounds on the level q
  have hq1 : q ≤ 1 := min_le_right _ _
  have hqpos : 0 < q := by
    rw [hq]
    unfold q_level
    apply lt_min _ one_pos
    apply div_pos _ (by exact_mod_cast hn)
    have harg : (0 : ℚ) < ((n : ℚ) + 1) * (1 - alpha) := by
      have : (0 : ℚ) < (n : ℚ) + 1 := by positivity
      nlinarith
    calc (0 : ℚ) < ((n : ℚ) + 1) * (1 - alpha) := harg
      _ ≤ (qceil (((n : ℚ) + 1) * (1 - alpha)) : ℚ) := le_qceil _
  -- the virtual index
  set vidx := qceil (q * ((n : ℚ) - 1)) with hvidx
  have hvnonneg : 0 ≤ vidx := by
    have h1 : (0 : ℚ) ≤ q * ((n : ℚ) - 1) := by
      have : (1 : ℚ) ≤ (n : ℚ) := by exact_mod_cast hn
      nlinarith
    have h2 : (0 : ℚ) ≤ (vidx : ℚ) := by
      rw [hvidx]
      exact h1.trans (le_qceil _)
    exact_mod_cast h2
  have hvlt : vidx.toNat < n := by
    have h1 : q * ((n : ℚ) - 1) ≤ (n : ℚ) - 1 := by
      have : (1 : ℚ) ≤ (n : ℚ) := by exact_mod_cast hn
      nlinarith
    have h2 := qceil_lt_add_one (q * ((n : ℚ) - 1))
    have h3 : (vidx : ℚ) < (n : ℚ) := by
      rw [hvidx]
      calc (qceil (q * ((n : ℚ) - 1)) : ℚ) < q * ((n : ℚ) - 1) + 1 := h2
        _ ≤ (n : ℚ) - 1 + 1 := by linarith
        _ = (n : ℚ) := by ring
    have h4 : vidx < (n : ℤ) := by exact_mod_cast h3
    omega
  have hvlt' : vidx.toNat < sorted.length := by omega
  -- qhat is the sorted element at the virtual index
  have hqhat : (fit_split_conformal probas_calib y_calib alpha labels).qhat
      = sorted.get ⟨vidx.toNat, hvlt'⟩ := by
    show conformal_quantile scores alpha = _
    unfold conformal_quantile np_quantile_higher
    rw [← hnn, ← hq, ← hsorted, ← hvidx]
    exact List.getD_eq_get _ _ _
  -- membership
  have hmem : (fit_split_conformal probas_calib y_calib alpha labels).qhat ∈ scores := by
    rw [hqhat]
    exact hperm.mem_iff.mp (List.get_mem _ _ _)
  -- empirical CDF at qhat reaches q
  have hcdf : empirical_cdf_ge scores q
      (fit_split_conformal probas_calib y_calib alpha labels).qhat = true := by
    rw [hqhat]
    unfold empirical_cdf_ge
    apply decide_eq_true
    have hcount := sorted_countP_le sorted hsort vidx.toNat hvlt'
    have hcp : sorted.countP (fun s => decide (s ≤ sorted.get ⟨vidx.toNat, hvlt'⟩))
        = scores.countP (fun s => decide (s ≤ sorted.get ⟨vidx.toNat, hvlt'⟩)) :=
      hperm.countP_eq _
    rw [hcp] at hcount
    have hqn : q * (n : ℚ) ≤ (vidx.toNat : ℚ) + 1 := by
      have h2 := le_qceil (q * ((n : ℚ) - 1))
      have h3 : (vidx.toNat : ℚ) = (vidx : ℚ) := by
        exact_mod_cast Int.toNat_of_nonneg hvnonneg
      rw [h3, hvidx]
      nlinarith [h2, hq1, hqpos]
    calc q * ((scores.length : ℕ) : ℚ) = q * (n : ℚ) := by rw [← hnn]
      _ ≤ (vidx.toNat : ℚ) + 1 := hqn
      _ ≤ (scores.countP (fun s => decide (s ≤ sorted.get ⟨vidx.toNat, hvlt'⟩)) : ℚ) := by
          exact_mod_cast hcount
  -- the spec's smallest-score characterization is a lower bound
  have hspec : spec_upper_quantile scores q
      ≤ (fit_split_conformal probas_calib y_calib alpha labels).qhat := by
    have hptrue : empirical_cdf_ge scores q (sorted.get ⟨vidx.toNat, hvlt'⟩) = true := by
      rw [← hqhat]
      exact hcdf
    rcases find?_le_of_sorted sorted (empirical_cdf_ge scores q) hsort
      vidx.toNat hvlt' hptrue with ⟨s, hfind, hle⟩
    unfold spec_upper_quantile
    rw [← hsorted, hfind, hqhat]
    exact hle
  exact ⟨rfl, rfl, by rw [hqhat]; exact (List.getD_eq_get _ _ _).symm, hmem, hcdf, hspec⟩

theorem claim_C5_witness :
    0 < (conformal_scores [(mkRat 1 2, mkRat 1 2)] [true]).length
    ∧ (0 : ℚ) < mkRat 1 10 ∧ mkRat 1 10 < (1 : ℚ)
    ∧ (fit_split_conformal [(mkRat 1 2, mkRat 1 2)] [true] (mkRat 1 10)
        ["non_fraud", "fraud"]).qhat
        ∈ conformal_scores [(mkRat 1 2, mkRat 1 2)] [true] :=
  ⟨by decide, by decide, by decide,
    (claim_C5_quantile [(mkRat 1 2, mkRat 1 2)] [true] (mkRat 1 10)
      ["non_fraud", "fraud"] (by decide) (by decide) (by decide)).2.2.2.1⟩

/- ----------------------------------------------------------------
save_calib / load_calib (conformal.py persistence)
---------------------------------------------------------------- -/

/-- On-disk representation written by `save_calib`: the `.npy` file holds a
float32 array and the JSON metadata holds `alpha` and `labels`. -/
structure CalibFiles where
  qhat_arr : List ℚ
  meta_alpha : ℚ
  meta_labels : List String
deriving DecidableEq

/-- `save_calib(calib, qhat_path, meta_path)`: stores
`np.array([calib.qhat], dtype=np.float32)` and `{"alpha", "labels"}`.
The down-cast to float32 is modelled by the explicit rounding map `f32`;
`alpha` and `labels` go through JSON unchanged (Python floats round-trip
JSON exactly). -/
def save_calib (f32 : ℚ → ℚ) (calib : ConformalCalib) : CalibFiles :=
  { qhat_arr := [f32 calib.qhat]
    meta_alpha := calib.alpha
    meta_labels := calib.labels }

/-- `load_calib(qhat_path, meta_path)`: `qhat = float(np.load(qhat_path)[0])`
plus the JSON metadata. -/
def load_calib (files : CalibFiles) : ConformalCalib :=
  { alpha := files.meta_alpha
    qhat := files.qhat_arr.getD 0 0
    labels := files.meta_labels }

/-- C9: a save/load round trip stores `qhat` as a length-1 float array and
returns a `ConformalCalib` with `alpha` and `labels` unchanged and `qhat`
equal to the float32 rounding of the original — so the round trip is exact
whenever `qhat` is float32-representable (`f32 qhat = qhat`), and a second
round trip always reproduces the first exactly. -/
theorem claim_C9_roundtrip (f32 : ℚ → ℚ) (c : ConformalCalib) :
    (save_calib f32 c).qhat_arr = [f32 c.qhat]
    ∧ load_calib (save_calib f32 c) = ⟨c.alpha, f32 c.qhat, c.labels⟩
    ∧ (f32 c.qhat = c.qhat → load_calib (save_calib f32 c) = c)
    ∧ ((∀ x, f32 (f32 x) = f32 x) →
        load_calib (save_calib f32 (load_calib (save_calib f32 c)))
          = load_calib (save_calib f32 c)) := by
  refine ⟨rfl, rfl, ?_, ?_⟩
  · intro h
    simp [load_calib, save_calib, h]
  · intro hidem
    simp [load_calib, save_calib, hidem]

theorem claim_C9_witness :
    load_calib (save_calib id ⟨mkRat 1 10, mkRat 1 5, ["non_fraud", "fraud"]⟩)
      = ⟨mkRat 1 10, mkRat 1 5, ["non_fraud", "fraud"]⟩ :=
  (claim_C9_roundtrip id ⟨mkRat 1 10, mkRat 1 5, ["non_fraud", "fraud"]⟩).2.2.1 rfl

/- ----------------------------------------------------------------
src/fraud_service/drift/retrain.py
---------------------------------------------------------------- -/

/-- `RetrainTrigger` dataclass: thresholds, `required_hard_windows`, and the
mutable `_hard_hits` counter. -/
structure RetrainTrigger where
  soft_thr : ℚ
  hard_thr : ℚ
  required_hard_windows : ℕ
  hard_hits : ℕ
deriving DecidableEq

/-- Result dictionary `{"triggered": ..., "reason": ...}` of
`on_drift_update`. -/
structure TriggerResult where
  triggered : Bool
  reason : Option String
deriving DecidableEq

/-- `RetrainTrigger.on_drift_update(drift_score, extra)`: increment
`_hard_hits` when `drift_score >= hard_thr`, else reset it to 0; when the
counter reaches `required_hard_windows`, report a trigger with reason
`HARD_DRIFT_<hits>_WINDOWS` and reset the counter. -/
def on_drift_update (t : RetrainTrigger) (drift_score : ℚ) :
    RetrainTrigger × TriggerResult :=
  let hits := if t.hard_thr ≤ drift_score then t.hard_hits + 1 else 0
  if t.required_hard_windows ≤ hits then
    ({ t with hard_hits := 0 },
      { triggered := true
        reason := some ("HARD_DRIFT_" ++ toString hits ++ "_WINDOWS") })
  else
    ({ t with hard_hits := hits }, { triggered := false, reason := none })

/-- Fold a sequence of drift scores through `on_drift_update`, returning the
final trigger state and the number of calls that reported `triggered`. -/
def run_trigger : RetrainTrigger → List ℚ → RetrainTrigger × ℕ
  | t, [] => (t, 0)
  | t, s :: rest =>
    ((run_trigger (on_drift_update t s).1 rest).1,
      (if (on_drift_update t s).2.triggered then 1 else 0)
        + (run_trigger (on_drift_update t s).1 rest).2)


theorem run_trigger_hard (req : ℕ) (hreq : 1 ≤ req) :
    ∀ (scores : List ℚ) (t : RetrainTrigger), t.required_hard_windows = req →
      t.hard_hits < req → (∀ x ∈ scores, t.hard_thr ≤ x) →
      (run_trigger t scores).2 = (t.hard_hits + scores.length) / req
      ∧ (run_trigger t scores).1.hard_hits = (t.hard_hits + scores.length) % req := by
  intro scores
  induction scores with
  | nil =>
    intro t htr hlt _
    constructor
    · simp [run_trigger, Nat.div_eq_of_lt hlt]
    · simp [run_trigger, Nat.mod_eq_of_lt hlt]
  | cons s rest ih =>
    intro t htr hlt hall
    have hhard : t.hard_thr ≤ s := hall s (by simp)
    by_cases hfire : req ≤ t.hard_hits + 1
    · have hstep : on_drift_update t s
          = ({ t with hard_hits := 0 },
              { triggered := true
                reason := some ("HARD_DRIFT_" ++ toString (t.hard_hits + 1) ++ "_WINDOWS") }) := by
        simp [on_drift_update, hhard, htr, hfire]
      have hrest := ih { t with hard_hits := 0 } htr (by simpa using hreq)
        (fun x hx => hall x (by simp [hx]))
      have h0 : ({ t with hard_hits := 0 } : RetrainTrigger).hard_hits = 0 := rfl
      rw [h0, Nat.zero_add] at hrest
      have hlen : t.hard_hits + (rest.length + 1) = rest.length + req := by
        omega
      have hdiv : (rest.length + req) / req = rest.length / req + 1 :=
        Nat.add_div_right _ (by omega)
      have hmod : (rest.length + req) % req = rest.length % req :=
        Nat.add_mod_right _ _
      constructor
      · simp only [run_trigger, hstep]
        simp [hrest.1, hlen, hdiv]
        omega
      · simp only [run_trigger, hstep]
        simp [hrest.2, hlen, hmod]
    · have hstep : on_drift_update t s
          = ({ t with hard_hits := t.hard_hits + 1 },
              { triggered := false, reason := none }) := by
        simp [on_drift_update, hhard, htr, hfire]
      have hrest := ih { t with hard_hits := t.hard_hits + 1 } htr
        (by show t.hard_hits + 1 < req; omega)
        (fun x hx => hall x (by simp [hx]))
      have h1 : ({ t with hard_hits := t.hard_hits + 1 } : RetrainTrigger).hard_hits
          = t.hard_hits + 1 := rfl
      rw [h1] at hrest
      have hlen : t.hard_hits + 1 + rest.length = t.hard_hits + (rest.length + 1) := by
        omega
      constructor
      · simp only [run_trigger, hstep]
        simp [hrest.1, hlen]
      · simp only [run_trigger, hstep]
        simp [hrest.2, hlen]

/-- C6: under the latch invariant (counter below the threshold, threshold at
least 1): a call triggers exactly when the window is hard and the counter
reaches `required_hard_windows`; a triggering call reports reason
`HARD_DRIFT_<required_hard_windows>_WINDOWS` and resets the counter; a
non-triggering call reports no reason; a non-hard window resets the counter;
the invariant is preserved; and over any run of consecutive hard windows
started from a reset counter the trigger fires exactly
`⌊run length / required_hard_windows⌋` times, re-arming each time. -/
theorem claim_C6_retrain_trigger (t : RetrainTrigger)
    (hreq : 1 ≤ t.required_hard_windows)
    (hinv : t.hard_hits < t.required_hard_windows) :
    (∀ score : ℚ,
      ((on_drift_update t score).2.triggered = true
        ↔ (t.hard_thr ≤ score ∧ t.hard_hits + 1 = t.required_hard_windows))
      ∧ ((on_drift_update t score).2.triggered = true →
          (on_drift_update t score).2.reason
            = some ("HARD_DRIFT_" ++ toString t.required_hard_windows ++ "_WINDOWS")
          ∧ (on_drift_update t score).1.hard_hits = 0)
      ∧ ((on_drift_update t score).2.triggered = false →
          (on_drift_update t score).2.reason = none)
      ∧ (on_drift_update t score).1.hard_hits < t.required_hard_windows
      ∧ (¬ t.hard_thr ≤ score → (on_drift_update t score).1.hard_hits = 0))
    ∧ (t.hard_hits = 0 → ∀ scores : List ℚ, (∀ x ∈ scores, t.hard_thr ≤ x) →
        (run_trigger t scores).2 = scores.length / t.required_hard_windows) := by
  constructor
  · intro score
    by_cases hh : t.hard_thr ≤ score
    · by_cases hfire : t.required_hard_windows ≤ t.hard_hits + 1
      · have heq : t.hard_hits + 1 = t.required_hard_windows := by omega
        refine ⟨?_, ?_, ?_, ?_, ?_⟩ <;>
          simp [on_drift_update, hh, hfire, heq, hreq] <;> omega
      · refine ⟨?_, ?_, ?_, ?_, ?_⟩ <;>
          simp [on_drift_update, hh, hfire] <;> omega
    · have hfire : ¬ t.required_hard_windows ≤ 0 := by omega
      refine ⟨?_, ?_, ?_, ?_, ?_⟩ <;>
        simp [on_drift_update, hh, hfire] <;> omega
  · intro h0 scores hall
    have := (run_trigger_hard t.required_hard_windows hreq scores t rfl hinv hall).1
    rw [this, h0, Nat.zero_add]

theorem claim_C6_witness :
    (run_trigger ⟨mkRat 3 10, mkRat 6 10, 3, 0⟩ [1, 1, 1, 1, 1, 1, 1]).2 = 7 / 3 :=
  (claim_C6_retrain_trigger ⟨mkRat 3 10, mkRat 6 10, 3, 0⟩ (by decide) (by decide)).2
    rfl [1, 1, 1, 1, 1, 1, 1] (by decide)

/- ----------------------------------------------------------------
src/fraud_service/modeling/predict.py — BundleManager
---------------------------------------------------------------- -/

/-- Python `str.strip()`, modelled on the character list: drop unicode
whitespace from both ends. -/
def py_strip (s : String) : String :=
  String.mk (((s.data.dropWhile Char.isWhitespace).reverse.dropWhile
    Char.isWhitespace).reverse)

/-- One observable outcome of reading a pointer file in `_read_pointer`:
the file may be missing, unreadable (OSError on every retry), hold
unparseable JSON (JSONDecodeError on every retry), hold JSON without the
key (or with a null value), or hold a value whose `str()` is `v`.  The
retry loop re-reads the same outcome, so it collapses to one outcome. -/
inductive PtrRead where
  | missing
  | ioError
  | badJson
  | keyMissing
  | value (v : String)
deriving DecidableEq

/-- `_read_pointer(path, key)` from predict.py: `None` on
missing/unreadable/unparseable/absent-key, otherwise the stripped value,
with an empty stripped value mapped to `None`. -/
def read_pointer : PtrRead → Option String
  | .missing => none
  | .ioError => none
  | .badJson => none
  | .keyMissing => none
  | .value v => if py_strip v = "" then none else some (py_strip v)

/-- The `(active_version, active_bundle)` pair guarded by the
`BundleManager` lock; `β` is the bundle type. -/
structure MgrState (β : Type) where
  active_version : Option String
  active_bundle : Option β
deriving DecidableEq

/-- Outcome of `get_active()`: a bundle, or the raised
model-service-unavailable error (`RuntimeError` / re-raised load error,
surfaced as HTTP 503). -/
inductive GetActive (β : Type) where
  | ok (b : β)
  | unavailable
deriving DecidableEq

/-- `BundleManager.get_active()`: read the ACTIVE pointer; on a missing or
invalid pointer keep the previous bundle (or raise if none); on a version
equal to the cached one return the cache; otherwise attempt
`_load_versioned_bundle` (abstracted as `load`, `none` = raised) and swap
on success, keep the previous bundle on failure (or re-raise if none). -/
def get_active {β : Type} (load : String → Option β) (ptr : PtrRead)
    (s : MgrState β) : GetActive β × MgrState β :=
  match read_pointer ptr with
  | none =>
    match s.active_bundle with
    | some b => (.ok b, s)
    | none => (.unavailable, s)
  | some v =>
    match s.active_bundle with
    | some b =>
      if s.active_version = some v then (.ok b, s)
      else
        match load v with
        | some nb => (.ok nb, ⟨some v, some nb⟩)
        | none => (.ok b, s)
    | none =>
      match load v with
      | some nb => (.ok nb, ⟨some v, some nb⟩)
      | none => (.unavailable, s)

/-- C1: whenever the ACTIVE pointer read fails (missing / unreadable /
empty / bad JSON) or names a version whose load fails, `get_active` with a
previously loaded bundle returns that bundle unchanged and leaves the
cached pair untouched, and without a previous bundle it fails with the
model-service-unavailable error (leaving the cache empty). -/
theorem claim_C1_get_active {β : Type} (load : String → Option β)
    (ptr : PtrRead) (s : MgrState β)
    (hfail : read_pointer ptr = none
      ∨ ∃ v, read_pointer ptr = some v ∧ load v = none) :
    (∀ b, s.active_bundle = some b →
      get_active load ptr s = (GetActive.ok b, s))
    ∧ (s.active_bundle = none →
      get_active load ptr s = (GetActive.unavailable, s)) := by
  constructor
  · intro b hb
    rcases hfail with hnone | ⟨v, hv, hload⟩
    · simp [get_active, hnone, hb]
    · by_cases hver : s.active_version = some v
      · simp [get_active, hv, hb, hver]
      · simp [get_active, hv, hb, hver, hload]
  · intro hb
    rcases hfail with hnone | ⟨v, hv, hload⟩
    · simp [get_active, hnone, hb]
    · simp [get_active, hv, hb, hload]

theorem claim_C1_witness :
    get_active (β := ℕ) (fun _ => none) (PtrRead.value "   ")
      ⟨some "v1", some 7⟩ = (GetActive.ok 7, ⟨some "v1", some 7⟩) :=
  (claim_C1_get_active (fun _ => none) (PtrRead.value "   ")
    ⟨some "v1", some 7⟩ (Or.inl (by decide))).1 7 rfl

/- ----------------------------------------------------------------
src/fraud_service/utils/io.py and src/fraud_service/modeling/registry.py
---------------------------------------------------------------- -/

/-- File-system effects performed by the service, recorded as a trace:
`mkdir -p` of a path's parent, opening a path in "w" mode and writing
`content` (truncates an existing file), `Path.replace` (atomic rename),
and setting a file's mtime (`os.utime` / `touch`). -/
inductive FsOp where
  | mkdirParentOf (path : String)
  | writeFile (path : String) (content : String)
  | rename (src : String) (dst : String)
  | setMtime (path : String) (t : ℚ)
deriving DecidableEq

/-- `json.dumps({key: value}, indent=2)` for a one-entry pointer object. -/
def json_dump_one (key value : String) : String :=
  "\x7b\n  \"" ++ key ++ "\": \"" ++ value ++ "\"\n\x7d"

/-- `save_json(obj, path)` from utils/io.py: mkdir the parent, then open
the FINAL path in "w" mode and dump the JSON directly into it. -/
def save_json (content : String) (path : String) : List FsOp :=
  [.mkdirParentOf path, .writeFile path content]

/-- `_write_pointer(path, key, version)` from registry.py:
`ensure_parent(path)` followed by `save_json({key: version}, path)`. -/
def write_pointer (path key version : String) : List FsOp :=
  FsOp.mkdirParentOf path :: save_json (json_dump_one key version) path

/-- `write_active_model(path, version)` from registry.py. -/
def write_active_model (path version : String) : List FsOp :=
  write_pointer path "active_version" version

/-- `write_shadow_model(path, version)` from registry.py. -/
def write_shadow_model (path version : String) : List FsOp :=
  write_pointer path "shadow_version" version

/-- `write_rollback_model(path, version)` from registry.py. -/
def write_rollback_model (path version : String) : List FsOp :=
  write_pointer path "rollback_version" version

/-- Follows the spec's words (for comparison with the code's traces): a
trace writes `path` atomically when it never opens `path` for direct
writing, and it puts content at `path` by renaming a file that the trace
itself wrote under a different (temporary) name. -/
def atomic_write_to (ops : List FsOp) (path : String) : Bool :=
  (ops.all (fun op => match op with
    | FsOp.writeFile p _ => decide (p ≠ path)
    | _ => true))
  && (ops.any (fun op => match op with
    | FsOp.rename src dst =>
        decide (dst = path) && (ops.any (fun op2 => match op2 with
          | FsOp.writeFile p _ => decide (p = src)
          | _ => false))
    | _ => false))

/-- C2 counterexample: the three pointer writers open the pointer path
directly in "w" mode (via `save_json`) with no temporary file and no
rename, so none of them is an atomic temp-file-plus-rename write. -/
theorem claim_C2_counterexample :
    atomic_write_to (write_active_model "artifacts/models/ACTIVE_MODEL.json" "v1")
      "artifacts/models/ACTIVE_MODEL.json" = false
    ∧ atomic_write_to (write_shadow_model "artifacts/models/SHADOW_MODEL.json" "v2")
      "artifacts/models/SHADOW_MODEL.json" = false
    ∧ atomic_write_to (write_rollback_model "artifacts/models/ROLLBACK_MODEL.json" "v3")
      "artifacts/models/ROLLBACK_MODEL.json" = false := by
  refine ⟨?_, ?_, ?_⟩ <;> decide

/-- C2 (amended): every pointer write (`write_active_model`,
`write_shadow_model`, `write_rollback_model`) is a direct truncating write
of the full serialized JSON to the pointer path — mkdir of the parent
(twice) followed by `open(path, "w")` — with no temporary file and no
rename, so it is not an atomic pointer write in the spec's sense; a
concurrent reader may observe a partially written pointer file (the bundle
manager's retrying, failure-tolerant reader is what mitigates this). -/
theorem claim_C2_pointer_writes (path version : String) :
    write_active_model path version
      = [FsOp.mkdirParentOf path, FsOp.mkdirParentOf path,
          FsOp.writeFile path (json_dump_one "active_version" version)]
    ∧ write_shadow_model path version
      = [FsOp.mkdirParentOf path, FsOp.mkdirParentOf path,
          FsOp.writeFile path (json_dump_one "shadow_version" version)]
    ∧ write_rollback_model path version
      = [FsOp.mkdirParentOf path, FsOp.mkdirParentOf path,
          FsOp.writeFile path (json_dump_one "rollback_version" version)]
    ∧ atomic_write_to (write_active_model path version) path = false
    ∧ atomic_write_to (write_shadow_model path version) path = false
    ∧ atomic_write_to (write_rollback_model path version) path = false := by
  refine ⟨rfl, rfl, rfl, ?_, ?_, ?_⟩ <;>
    simp [atomic_write_to, write_active_model, write_shadow_model,
      write_rollback_model, write_pointer, save_json]

/- ----------------------------------------------------------------
src/fraud_service/drift/emitter.py
---------------------------------------------------------------- -/

/-- `RetrainEmitter` configuration: `cooldown_seconds` and `max_pending`
(the marker filename is fixed to `.last_emit`). -/
structure RetrainEmitter where
  cooldown_seconds : ℚ
  max_pending : ℕ
deriving DecidableEq

/-- State of the queue directory: mtime of the `.last_emit` marker (none =
marker absent) and the list of existing `retrain_request_*.json` files. -/
structure QueueState where
  marker_mtime : Option ℚ
  pending : List String
deriving DecidableEq

/-- `retrain_request_<ts>.json`. -/
def request_filename (ts : String) : String := "retrain_request_" ++ ts ++ ".json"

/-- `path.with_suffix(path.suffix + ".tmp")` applied to the request path. -/
def tmp_filename (ts : String) : String := request_filename ts ++ ".tmp"

/-- The cooldown marker file name. -/
def marker_filename : String := ".last_emit"

/-- `RetrainEmitter.emit(...)`: return false if the marker mtime is within
`cooldown_seconds` of `now`; return false if the pending request count has
reached `max_pending`; otherwise write `retrain_request_<ts>.json.tmp`,
atomically rename it onto `retrain_request_<ts>.json`, and touch
`.last_emit` to mtime `now`.  `payload_json` abstracts the serialized
request payload and `ts` the formatted timestamp; the returned trace
records the file operations performed. -/
def emit (e : RetrainEmitter) (now : ℚ) (ts : String) (payload_json : String)
    (s : QueueState) : Bool × QueueState × List FsOp :=
  let cooldown_blocked : Bool :=
    match s.marker_mtime with
    | some last => decide (now - last < e.cooldown_seconds)
    | none => false
  if cooldown_blocked then (false, s, [])
  else if e.max_pending ≤ s.pending.length then (false, s, [])
  else
    (true,
      { marker_mtime := some now
        pending :=
          if request_filename ts ∈ s.pending then s.pending
          else s.pending ++ [request_filename ts] },
      [FsOp.writeFile (tmp_filename ts) payload_json,
        FsOp.rename (tmp_filename ts) (request_filename ts)]
      ++ (if s.marker_mtime.isSome then ([] : List FsOp)
          else [FsOp.writeFile marker_filename "last_emit\n"])
      ++ [FsOp.setMtime marker_filename now])

theorem tmp_ne_request (ts : String) : tmp_filename ts ≠ request_filename ts := by
  intro h
  have hlen := congrArg String.length h
  rw [tmp_filename, String.length_append] at hlen
  have : (".tmp" : String).length = 4 := by decide
  omega

theorem marker_ne_request (ts : String) : marker_filename ≠ request_filename ts := by
  intro h
  have hlen := congrArg String.length h
  rw [request_filename, String.length_append, String.length_append] at hlen
  have h1 : (marker_filename : String).length = 10 := by decide
  have h2 : ("retrain_request_" : String).length = 16 := by decide
  have h3 : (".json" : String).length = 5 := by decide
  omega

theorem emit_pending_le (e : RetrainEmitter) (now : ℚ) (ts : String)
    (payload : String) (s : QueueState) :
    (emit e now ts payload s).2.1.pending.length ≤ s.pending.length + 1 := by
  rw [emit]
  by_cases hb : (match s.marker_mtime with
      | some last => decide (now - last < e.cooldown_seconds)
      | none => false) = true
  · rw [if_pos hb]
    simp
  · rw [if_neg hb]
    by_cases hfull : e.max_pending ≤ s.pending.length
    · simp [hfull]
    · simp only [hfull, if_false, ite_false]
      by_cases hmem : request_filename ts ∈ s.pending
      · simp [hmem]
      · simp [hmem]

theorem emit_cooldown_blocked (e : RetrainEmitter) (now2 : ℚ) (ts2 : String)
    (payload2 : String) (last : ℚ) (pend : List String)
    (h : now2 - last < e.cooldown_seconds) :
    emit e now2 ts2 payload2 ⟨some last, pend⟩ = (false, ⟨some last, pend⟩, []) := by
  rw [emit]
  have hb : (match (⟨some last, pend⟩ : QueueState).marker_mtime with
      | some l => decide (now2 - l < e.cooldown_seconds)
      | none => false) = true := by simp [h]
  rw [if_pos hb]

/-- C7: a call inside the cooldown window, or with a full backlog, returns
false and performs no file operation; a successful call writes exactly one
new request file via temp-file-plus-atomic-rename (never opening the final
request path directly), sets the marker mtime to `now`, returns true, and
leaves at most `max_pending` pending files; and two sequential `emit` calls
within `cooldown_seconds` of each other add at most one file. -/
theorem claim_C7_emitter (e : RetrainEmitter) (now : ℚ) (ts : String)
    (payload : String) (s : QueueState) :
    (∀ last, s.marker_mtime = some last → now - last < e.cooldown_seconds →
      emit e now ts payload s = (false, s, []))
    ∧ ((∀ last, s.marker_mtime = some last → ¬ now - last < e.cooldown_seconds) →
      e.max_pending ≤ s.pending.length →
      emit e now ts payload s = (false, s, []))
    ∧ ((∀ last, s.marker_mtime = some last → ¬ now - last < e.cooldown_seconds) →
      s.pending.length < e.max_pending →
      (emit e now ts payload s).1 = true
      ∧ (emit e now ts payload s).2.1.marker_mtime = some now
      ∧ (request_filename ts ∉ s.pending →
          (emit e now ts payload s).2.1.pending
            = s.pending ++ [request_filename ts])
      ∧ (emit e now ts payload s).2.1.pending.length ≤ e.max_pending
      ∧ atomic_write_to (emit e now ts payload s).2.2 (request_filename ts) = true)
    ∧ (∀ now2 ts2 payload2, now2 - now < e.cooldown_seconds →
        (emit e now2 ts2 payload2 (emit e now ts payload s).2.1).2.1.pending.length
          ≤ s.pending.length + 1) := by
  have hcool : ∀ (s' : QueueState),
      (∀ last, s'.marker_mtime = some last → ¬ now - last < e.cooldown_seconds) →
      (match s'.marker_mtime with
        | some last => decide (now - last < e.cooldown_seconds)
        | none => false) = false := by
    intro s' h
    cases hm : s'.marker_mtime with
    | none => rfl
    | some last => simp [h last hm]
  refine ⟨?_, ?_, ?_, ?_⟩
  · intro last hm hlt
    simp [emit, hm, hlt]
  · intro hnc hfull
    rw [emit, hcool s hnc]
    simp [hfull]
  · intro hnc hroom
    rw [emit, hcool s hnc]
    have hn : ¬ e.max_pending ≤ s.pending.length := by omega
    refine ⟨by simp [hn], by simp [hn], by intro hmem; simp [hn, hmem], ?_, ?_⟩
    · by_cases hmem : request_filename ts ∈ s.pending
      · simp [hn, hmem]
        omega
      · simp [hn, hmem]
        omega
    · simp only [hn, if_false, ite_false]
      cases hms : s.marker_mtime.isSome with
      | true =>
        simp [hms, atomic_write_to, tmp_ne_request ts, marker_ne_request ts]
      | false =>
        simp [hms, atomic_write_to, tmp_ne_request ts, marker_ne_request ts]
  · intro now2 ts2 payload2 hwin
    by_cases hb1 : (match s.marker_mtime with
        | some last => decide (now - last < e.cooldown_seconds)
        | none => false) = true
    · have h1 : (emit e now ts payload s).2.1 = s := by
        rw [emit, if_pos hb1]
      rw [h1]
      exact emit_pending_le e now2 ts2 payload2 s
    · by_cases hfull : e.max_pending ≤ s.pending.length
      · have h1 : (emit e now ts payload s).2.1 = s := by
          rw [emit, if_neg hb1]
          simp [hfull]
        rw [h1]
        exact emit_pending_le e now2 ts2 payload2 s
      · have h1 : (emit e now ts payload s).2.1
            = ⟨some now,
                if request_filename ts ∈ s.pending then s.pending
                else s.pending ++ [request_filename ts]⟩ := by
          rw [emit, if_neg hb1]
          simp [hfull]
        rw [h1, emit_cooldown_blocked e now2 ts2 payload2 now _ hwin]
        by_cases hmem : request_filename ts ∈ s.pending
        · simp [hmem]
        · simp [hmem]

theorem claim_C7_witness :
    (emit ⟨600, 1⟩ 1000 "20260101_000000" "payload" ⟨none, []⟩).1 = true :=
  ((claim_C7_emitter ⟨600, 1⟩ 1000 "20260101_000000" "payload" ⟨none, []⟩).2.2.1
    (by intro last h; exact absurd h (by simp)) (by decide)).1

/- ----------------------------------------------------------------
src/fraud_service/drift/detector.py
---------------------------------------------------------------- -/

/-- Modelled from the spec: the module `fraud_service.drift.constants`
(imported by detector.py) is not under src/; the spec fixes the PSI weight
of the combined drift score to 0.7. -/
def PSI_WEIGHT : ℚ := mkRat 7 10

/-- Modelled from the spec: the module `fraud_service.drift.constants` is
not under src/; the spec fixes the KS weight of the combined drift score
to 0.3. -/
def KS_WEIGHT : ℚ := mkRat 3 10

/-- Modelled from the spec: the module `fraud_service.drift.constants` is
not under src/; the spec fixes the PSI normalization bound to 0.25. -/
def PSI_NORMALIZATION_FACTOR : ℚ := mkRat 1 4

/-- Python `buf[-w:]` for a nonnegative `w`; note that `buf[-0:]` is the
WHOLE list, not the empty suffix. -/
def py_tail {α : Type} (l : List α) (w : ℕ) : List α :=
  if w = 0 then l else l.drop (l.length - w)

/-- Static configuration of a `DriftDetector` (the reference statistics are
abstracted into the `stats` parameter of `update_and_score`). -/
structure DriftDetector where
  feature_names : List String
  window_size : ℕ
  stride : ℕ
  p_value_threshold : ℚ
  psi_soft_thr : ℚ
  psi_hard_thr : ℚ
deriving DecidableEq

/-- Mutable detector state: `_buf`, `_since_last`, and the cached last
result (`_last_score`, `_last_top`, `_last_soft_count`, `_last_hard_count`).
`α` is the row type. -/
structure DetState (α : Type) where
  buf : List α
  since_last : ℕ
  last_score : ℚ
  last_top : List String
  last_soft : ℕ
  last_hard : ℕ
deriving DecidableEq

/-- Result dictionary of `update_and_score` (`psi_mean` and `ks_flag_frac`
are `None` in the cached branch). -/
structure DriftResult where
  drift_score : ℚ
  top_drifted_features : List String
  psi_mean : Option ℚ
  ks_flag_frac : Option ℚ
  feature_soft_count : ℕ
  feature_hard_count : ℕ
  updated : Bool
deriving DecidableEq

/-- `[feature_names[i] for i in np.argsort(psi_vals)[::-1][:5]]`: names
ordered by descending PSI, first five (numpy's unstable argsort leaves tie
order unspecified; insertion sort fixes one such order). -/
def top_drifted (names : List String) (psi_vals : List ℚ) : List String :=
  ((List.insertionSort (fun a b : String × ℚ => b.2 ≤ a.2)
    (names.zip psi_vals)).map Prod.fst).take 5

/-- `DriftDetector.update_and_score(x_row)`.  The per-feature PSI values
and KS p-values computed from the reference histograms / `ks_2samp` on the
window are abstracted as `stats buf = (psi_vals, ks_pvals)`; everything
after that point follows detector.py: `psi_score =
clip(mean(min(psi/0.25, 1)), 0, 1)`, `ks_flag_frac = clip(mean(1[p <
p_value_threshold]), 0, 1)`, `drift_score = clip(0.7·psi_score +
0.3·ks_flag_frac, 0, 1)`, top-5 features by PSI, and counts of features
with PSI above the soft / hard thresholds. -/
def update_and_score {α : Type} (d : DriftDetector)
    (stats : List α → List ℚ × List ℚ) (s : DetState α) (row : α) :
    DetState α × DriftResult :=
  let buf0 := s.buf ++ [row]
  let since := s.since_last + 1
  let buf := if d.window_size < buf0.length then py_tail buf0 d.window_size else buf0
  if buf.length < max 100 d.stride then
    (⟨buf, since, s.last_score, s.last_top, s.last_soft, s.last_hard⟩,
      ⟨0, [], some 0, some 0, 0, 0, false⟩)
  else if since < d.stride then
    (⟨buf, since, s.last_score, s.last_top, s.last_soft, s.last_hard⟩,
      ⟨s.last_score, s.last_top, none, none, s.last_soft, s.last_hard, false⟩)
  else
    let psi_vals := (stats buf).1
    let ks_pvals := (stats buf).2
    let psi_score :=
      np_clip (np_mean (psi_vals.map (fun p => min (p / PSI_NORMALIZATION_FACTOR) 1))) 0 1
    let ks_flag_frac :=
      np_clip (np_mean (ks_pvals.map
        (fun p => if p < d.p_value_threshold then (1 : ℚ) else 0))) 0 1
    let drift_score := np_clip (PSI_WEIGHT * psi_score + KS_WEIGHT * ks_flag_frac) 0 1
    let top_feats := top_drifted d.feature_names psi_vals
    let soft_count := psi_vals.countP (fun p => decide (d.psi_soft_thr < p))
    let hard_count := psi_vals.countP (fun p => decide (d.psi_hard_thr < p))
    (⟨buf, 0, drift_score, top_feats, soft_count, hard_count⟩,
      ⟨drift_score, top_feats, some (np_mean psi_vals), some ks_flag_frac,
        soft_count, hard_count, true⟩)

/-- Detector state as initialized by `DriftDetector.from_reference`: empty
buffer, zero counters, zero cached score. -/
def det_init (α : Type) : DetState α := ⟨[], 0, 0, [], 0, 0⟩

/-- Feed a list of rows through `update_and_score`, keeping the state. -/
def run_detector {α : Type} (d : DriftDetector)
    (stats : List α → List ℚ × List ℚ) : DetState α → List α → DetState α
  | s, [] => s
  | s, r :: rest => run_detector d stats (update_and_score d stats s r).1 rest

theorem update_buf_eq {α : Type} (d : DriftDetector)
    (stats : List α → List ℚ × List ℚ) (s : DetState α) (row : α) :
    (update_and_score d stats s row).1.buf
      = if d.window_size < (s.buf ++ [row]).length
        then py_tail (s.buf ++ [row]) d.window_size
        else s.buf ++ [row] := by
  rw [update_and_score]
  simp only []
  by_cases h1 : (if d.window_size < (s.buf ++ [row]).length
      then py_tail (s.buf ++ [row]) d.window_size
      else s.buf ++ [row]).length < max 100 d.stride
  · rw [if_pos h1]
  · rw [if_neg h1]
    by_cases h2 : s.since_last + 1 < d.stride
    · rw [if_pos h2]
    · rw [if_neg h2]

theorem update_buf_le {α : Type} (d : DriftDetector)
    (stats : List α → List ℚ × List ℚ) (s : DetState α) (row : α)
    (hw : 1 ≤ d.window_size) (hs : s.buf.length ≤ d.window_size) :
    (update_and_score d stats s row).1.buf.length ≤ d.window_size := by
  rw [update_buf_eq]
  by_cases h1 : d.window_size < (s.buf ++ [row]).length
  · rw [if_pos h1]
    have hw0 : d.window_size ≠ 0 := by omega
    simp [py_tail, hw0]
    omega
  · rw [if_neg h1]
    simp at h1 ⊢
    omega

theorem update_warmup {α : Type} (d : DriftDetector)
    (stats : List α → List ℚ × List ℚ) (s : DetState α) (row : α)
    (h : (update_and_score d stats s row).1.buf.length < max 100 d.stride) :
    (update_and_score d stats s row).2 = ⟨0, [], some 0, some 0, 0, 0, false⟩ := by
  rw [update_buf_eq] at h
  rw [update_and_score]
  simp only []
  rw [if_pos h]

/-- C3 counterexample: with `window_size = 0` the buffer is NOT trimmed to
the last `window_size` (= 0) rows: Python's `buf[-0:]` keeps the whole
buffer, so after one call the buffer holds the appended row instead of
being empty. -/
theorem claim_C3_counterexample :
    (update_and_score (⟨["f"], 0, 1, mkRat 1 100, mkRat 1 10, mkRat 1 4⟩ : DriftDetector)
        (fun _ => ([mkRat 1 2], [mkRat 1 2])) (det_init Unit) ()).1.buf = [()]
    ∧ (((det_init Unit).buf ++ [()]).drop
        (((det_init Unit).buf ++ [()]).length - 0) : List Unit) = [] := by
  constructor
  · decide
  · decide

/-- C3 (amended, for the positive `window_size` the claim presupposes —
with `window_size = 0` Python's `buf[-0:]` slice keeps the whole buffer):
`update_and_score` appends the row and trims the buffer to the last
`window_size` rows; with fewer than `max(100, stride)` buffered rows it
returns the zero result with `updated = false`; otherwise, before `stride`
rows have arrived since the last recomputation it returns the cached
score, top features and soft/hard counts with `updated = false`; otherwise
it recomputes (resetting `since_last` and the cache) and returns
`updated = true`; and in every case the returned and cached drift scores
lie in [0, 1]. -/
theorem claim_C3_update_contract {α : Type} (d : DriftDetector)
    (stats : List α → List ℚ × List ℚ) (s : DetState α) (row : α)
    (hw : 1 ≤ d.window_size)
    (hs0 : 0 ≤ s.last_score) (hs1 : s.last_score ≤ 1) :
    ((update_and_score d stats s row).1.buf
        = if d.window_size < (s.buf ++ [row]).length
          then (s.buf ++ [row]).drop ((s.buf ++ [row]).length - d.window_size)
          else s.buf ++ [row])
    ∧ ((update_and_score d stats s row).1.buf.length < max 100 d.stride →
        (update_and_score d stats s row).2 = ⟨0, [], some 0, some 0, 0, 0, false⟩
        ∧ (update_and_score d stats s row).1.since_last = s.since_last + 1)
    ∧ (¬ (update_and_score d stats s row).1.buf.length < max 100 d.stride →
        s.since_last + 1 < d.stride →
        (update_and_score d stats s row).2
          = ⟨s.last_score, s.last_top, none, none, s.last_soft, s.last_hard, false⟩
        ∧ (update_and_score d stats s row).1.since_last = s.since_last + 1)
    ∧ (¬ (update_and_score d stats s row).1.buf.length < max 100 d.stride →
        ¬ s.since_last + 1 < d.stride →
        (update_and_score d stats s row).2.updated = true
        ∧ (update_and_score d stats s row).1.since_last = 0
        ∧ (update_and_score d stats s row).1.last_score
            = (update_and_score d stats s row).2.drift_score
        ∧ (update_and_score d stats s row).2.drift_score
            = np_clip (PSI_WEIGHT * np_clip (np_mean
                  ((stats (update_and_score d stats s row).1.buf).1.map
                    (fun p => min (p / PSI_NORMALIZATION_FACTOR) 1))) 0 1
                + KS_WEIGHT * np_clip (np_mean
                  ((stats (update_and_score d stats s row).1.buf).2.map
                    (fun p => if p < d.p_value_threshold then (1 : ℚ) else 0))) 0 1) 0 1)
    ∧ (0 ≤ (update_and_score d stats s row).2.drift_score
        ∧ (update_and_score d stats s row).2.drift_score ≤ 1)
    ∧ (0 ≤ (update_and_score d stats s row).1.last_score
        ∧ (update_and_score d stats s row).1.last_score ≤ 1) := by
  have hw0 : d.window_size ≠ 0 := by omega
  have htail : py_tail (s.buf ++ [row]) d.window_size
      = (s.buf ++ [row]).drop ((s.buf ++ [row]).length - d.window_size) := by
    simp [py_tail, hw0]
  have hbuf := update_buf_eq d stats s row
  by_cases h1 : (if d.window_size < (s.buf ++ [row]).length
      then py_tail (s.buf ++ [row]) d.window_size
      else s.buf ++ [row]).length < max 100 d.stride
  · have h1' : (update_and_score d stats s row).1.buf.length < max 100 d.stride := by
      rw [hbuf]
      exact h1
    have hu : update_and_score d stats s row
        = (⟨if d.window_size < (s.buf ++ [row]).length
              then py_tail (s.buf ++ [row]) d.window_size
              else s.buf ++ [row],
            s.since_last + 1, s.last_score, s.last_top, s.last_soft, s.last_hard⟩,
          ⟨0, [], some 0, some 0, 0, 0, false⟩) := by
      rw [update_and_score]
      simp only []
      rw [if_pos h1]
    refine ⟨by rw [hbuf, htail], fun _ => ⟨by rw [hu], by rw [hu]⟩, ?_, ?_, ?_, ?_⟩
    · intro hcon _
      exact absurd h1' hcon
    · intro hcon _
      exact absurd h1' hcon
    · rw [hu]
      constructor <;> norm_num
    · rw [hu]
      exact ⟨hs0, hs1⟩
  · have h1' : ¬ (update_and_score d stats s row).1.buf.length < max 100 d.stride := by
      rw [hbuf]
      exact h1
    by_cases h2 : s.since_last + 1 < d.stride
    · have hu : update_and_score d stats s row
          = (⟨if d.window_size < (s.buf ++ [row]).length
                then py_tail (s.buf ++ [row]) d.window_size
                else s.buf ++ [row],
              s.since_last + 1, s.last_score, s.last_top, s.last_soft, s.last_hard⟩,
            ⟨s.last_score, s.last_top, none, none, s.last_soft, s.last_hard, false⟩) := by
        rw [update_and_score]
        simp only []
        rw [if_neg h1, if_pos h2]
      refine ⟨by rw [hbuf, htail], ?_, fun _ _ => ⟨by rw [hu], by rw [hu]⟩, ?_, ?_, ?_⟩
      · intro hcon
        exact absurd hcon h1'
      · intro _ hcon
        exact absurd h2 hcon
      · rw [hu]
        exact ⟨hs0, hs1⟩
      · rw [hu]
        exact ⟨hs0, hs1⟩
    · have hscore := np_clip_mem
        (PSI_WEIGHT * np_clip (np_mean
            (((stats (if d.window_size < (s.buf ++ [row]).length
              then py_tail (s.buf ++ [row]) d.window_size
              else s.buf ++ [row])).1).map
              (fun p => min (p / PSI_NORMALIZATION_FACTOR) 1))) 0 1
          + KS_WEIGHT * np_clip (np_mean
            (((stats (if d.window_size < (s.buf ++ [row]).length
              then py_tail (s.buf ++ [row]) d.window_size
              else s.buf ++ [row])).2).map
              (fun p => if p < d.p_value_threshold then (1 : ℚ) else 0))) 0 1)
        0 1 (by norm_num)
      have hu : update_and_score d stats s row
          = (⟨if d.window_size < (s.buf ++ [row]).length
                then py_tail (s.buf ++ [row]) d.window_size
                else s.buf ++ [row],
              0,
              np_clip (PSI_WEIGHT * np_clip (np_mean
                  (((stats (if d.window_size < (s.buf ++ [row]).length
                    then py_tail (s.buf ++ [row]) d.window_size
                    else s.buf ++ [row])).1).map
                    (fun p => min (p / PSI_NORMALIZATION_FACTOR) 1))) 0 1
                + KS_WEIGHT * np_clip (np_mean
                  (((stats (if d.window_size < (s.buf ++ [row]).length
                    then py_tail (s.buf ++ [row]) d.window_size
                    else s.buf ++ [row])).2).map
                    (fun p => if p < d.p_value_threshold then (1 : ℚ) else 0))) 0 1) 0 1,
              top_drifted d.feature_names
                ((stats (if d.window_size < (s.buf ++ [row]).length
                  then py_tail (s.buf ++ [row]) d.window_size
                  else s.buf ++ [row])).1),
              ((stats (if d.window_size < (s.buf ++ [row]).length
                then py_tail (s.buf ++ [row]) d.window_size
                else s.buf ++ [row])).1).countP (fun p => decide (d.psi_soft_thr < p)),
              ((stats (if d.window_size < (s.buf ++ [row]).length
                then py_tail (s.buf ++ [row]) d.window_size
                else s.buf ++ [row])).1).countP (fun p => decide (d.psi_hard_thr < p))⟩,
            ⟨np_clip (PSI_WEIGHT * np_clip (np_mean
                  (((stats (if d.window_size < (s.buf ++ [row]).length
                    then py_tail (s.buf ++ [row]) d.window_size
                    else s.buf ++ [row])).1).map
                    (fun p => min (p / PSI_NORMALIZATION_FACTOR) 1))) 0 1
                + KS_WEIGHT * np_clip (np_mean
                  (((stats (if d.window_size < (s.buf ++ [row]).length
                    then py_tail (s.buf ++ [row]) d.window_size
                    else s.buf ++ [row])).2).map
                    (fun p => if p < d.p_value_threshold then (1 : ℚ) else 0))) 0 1) 0 1,
              top_drifted d.feature_names
                ((stats (if d.window_size < (s.buf ++ [row]).length
                  then py_tail (s.buf ++ [row]) d.window_size
                  else s.buf ++ [row])).1),
              some (np_mean ((stats (if d.window_size < (s.buf ++ [row]).length
                then py_tail (s.buf ++ [row]) d.window_size
                else s.buf ++ [row])).1)),
              some (np_clip (np_mean
                (((stats (if d.window_size < (s.buf ++ [row]).length
                  then py_tail (s.buf ++ [row]) d.window_size
                  else s.buf ++ [row])).2).map
                  (fun p => if p < d.p_value_threshold then (1 : ℚ) else 0))) 0 1),
              ((stats (if d.window_size < (s.buf ++ [row]).length
                then py_tail (s.buf ++ [row]) d.window_size
                else s.buf ++ [row])).1).countP (fun p => decide (d.psi_soft_thr < p)),
              ((stats (if d.window_size < (s.buf ++ [row]).length
                then py_tail (s.buf ++ [row]) d.window_size
                else s.buf ++ [row])).1).countP (fun p => decide (d.psi_hard_thr < p)),
              true⟩) := by
        rw [update_and_score]
        simp only []
        rw [if_neg h1, if_neg h2]
      refine ⟨by rw [hbuf, htail], ?_, ?_, fun _ _ => ⟨by rw [hu], by rw [hu], by rw [hu], ?_⟩, ?_, ?_⟩
      · intro hcon
        exact absurd hcon h1'
      · intro _ hcon
        exact absurd hcon h2
      · rw [hu]
      · rw [hu]
        exact hscore
      · rw [hu]
        exact hscore

theorem claim_C3_witness :
    0 ≤ (update_and_score (⟨["f"], 200, 100, mkRat 1 100, mkRat 1 10, mkRat 1 4⟩ : DriftDetector)
        (fun _ => ([mkRat 1 2], [mkRat 1 2])) (det_init Unit) ()).2.drift_score
    ∧ (update_and_score (⟨["f"], 200, 100, mkRat 1 100, mkRat 1 10, mkRat 1 4⟩ : DriftDetector)
        (fun _ => ([mkRat 1 2], [mkRat 1 2])) (det_init Unit) ()).2.drift_score ≤ 1 :=
  (claim_C3_update_contract (⟨["f"], 200, 100, mkRat 1 100, mkRat 1 10, mkRat 1 4⟩ : DriftDetector)
    (fun _ => ([mkRat 1 2], [mkRat 1 2])) (det_init Unit) ()
    (by decide) (by decide) (by decide)).2.2.2.2.1

theorem run_detector_buf_le {α : Type} (d : DriftDetector)
    (stats : List α → List ℚ × List ℚ) (hw : 1 ≤ d.window_size) :
    ∀ (rows : List α) (s : DetState α), s.buf.length ≤ d.window_size →
      (run_detector d stats s rows).buf.length ≤ d.window_size := by
  intro rows
  induction rows with
  | nil =>
    intro s hs
    simpa [run_detector] using hs
  | cons r rest ih =>
    intro s hs
    simp only [run_detector]
    exact ih _ (update_buf_le d stats s r hw hs)

set_option maxRecDepth 8000 in
/-- C10 counterexample: with `window_size = 0` (which satisfies the claim's
premise `window_size < max(100, stride)`) the Python slice `buf[-0:]` does
not trim at all, the buffer reaches 100 rows, and the 100th call
recomputes, returning `updated = true` — contradicting the claim that
every call returns zeros with `updated = false`. -/
theorem claim_C10_counterexample :
    (update_and_score (⟨["f"], 0, 1, mkRat 1 100, mkRat 1 10, mkRat 1 4⟩ : DriftDetector)
        (fun _ => ([mkRat 1 2], [mkRat 1 2]))
        (run_detector (⟨["f"], 0, 1, mkRat 1 100, mkRat 1 10, mkRat 1 4⟩ : DriftDetector)
          (fun _ => ([mkRat 1 2], [mkRat 1 2])) (det_init Unit)
          (List.replicate 99 ())) ()).2.updated = true := by
  decide

/-- C10 (amended, for `1 ≤ window_size`; with `window_size = 0` Python's
`buf[-0:]` slice keeps the whole buffer and the recompute branch is
reachable): when `window_size < max(100, stride)` the buffer — trimmed to
the last `window_size` rows before the warmup check — never reaches
`max(100, stride)` rows, so every call returns drift score 0 with
`updated = false`, no matter how many rows were fed. -/
theorem claim_C10_small_window {α : Type} (d : DriftDetector)
    (stats : List α → List ℚ × List ℚ)
    (hw : 1 ≤ d.window_size) (hsmall : d.window_size < max 100 d.stride) :
    ∀ (rows : List α) (row : α),
      (run_detector d stats (det_init α) rows).buf.length ≤ d.window_size
      ∧ (update_and_score d stats (run_detector d stats (det_init α) rows) row).2
          = ⟨0, [], some 0, some 0, 0, 0, false⟩ := by
  intro rows row
  have hreach := run_detector_buf_le d stats hw rows (det_init α) (by simp [det_init])
  refine ⟨hreach, ?_⟩
  apply update_warmup
  have := update_buf_le d stats (run_detector d stats (det_init α) rows) row hw hreach
  omega

theorem claim_C10_witness :
    (update_and_score (⟨["f"], 50, 1, mkRat 1 100, mkRat 1 10, mkRat 1 4⟩ : DriftDetector)
      (fun _ => ([mkRat 1 2], [mkRat 1 2]))
      (run_detector (⟨["f"], 50, 1, mkRat 1 100, mkRat 1 10, mkRat 1 4⟩ : DriftDetector)
        (fun _ => ([mkRat 1 2], [mkRat 1 2])) (det_init Unit) [(), ()]) ()).2
      = ⟨0, [], some 0, some 0, 0, 0, false⟩ :=
  (claim_C10_small_window (⟨["f"], 50, 1, mkRat 1 100, mkRat 1 10, mkRat 1 4⟩ : DriftDetector)
    (fun _ => ([mkRat 1 2], [mkRat 1 2])) (by decide) (by decide) [(), ()] ()).2

/- ----------------------------------------------------------------
src/fraud_service/api/main.py — _schema_check and the /predict gate
---------------------------------------------------------------- -/

/-- Modelled from the spec: the module `fraud_service.api.constants` is not
under src/; the spec fixes the reason code string "DATA_CONTRACT". -/
def REASON_DATA_CONTRACT : String := "DATA_CONTRACT"

/-- Modelled from the spec: the module `fraud_service.api.constants` is not
under src/; the spec fixes the action code string "FALLBACK". -/
def ACTION_FALLBACK : String := "FALLBACK"

/-- A request feature value, classified exactly as `_schema_check` tests
it: `None`; a bool (`isinstance(value, bool)`); a finite numeric (or a
string `float()` accepts) with rational value `q`; a non-finite numeric
(NaN / ±inf, rejected by `math.isfinite`); or a value `float()` raises
on. -/
inductive FVal where
  | null
  | boolean (b : Bool)
  | num (q : ℚ)
  | nonfinite
  | nonnumeric (s : String)
deriving DecidableEq

/-- The per-value rejection test of `_schema_check`: `value is None or
isinstance(value, bool)`, `float(value)` raising, or `not
math.isfinite(...)`. -/
def invalid_value : FVal → Bool
  | .null => true
  | .boolean _ => true
  | .num _ => false
  | .nonfinite => true
  | .nonnumeric _ => true

/-- Lexicographic comparison of character lists by code point; mirrors
Python string `<=` as used by `sorted`. -/
def str_le_chars : List Char → List Char → Bool
  | [], _ => true
  | _ :: _, [] => false
  | c :: cs, d :: ds => if c = d then str_le_chars cs ds else decide (c.toNat ≤ d.toNat)

/-- Python string `<=` on the underlying code points. -/
def str_le (a b : String) : Bool := str_le_chars a.data b.data

/-- Python `sorted` on strings. -/
def py_sorted (l : List String) : List String :=
  List.insertionSort (fun a b => str_le a b = true) l

/-- `tag + ",".join(names[:20]) + ("..." if len(names) > 20 else "")`, the
truncated feature-name list used for the structured sub-reasons. -/
def fmt_feature_list (tag : String) (names : List String) : String :=
  tag ++ String.intercalate "," (names.take 20)
    ++ (if 20 < names.length then "..." else "")

/-- `_schema_check(bundle_features, payload, version, schema)` from
api/main.py.  `features` is the bundle's feature-name list, `payload` the
request's feature map as an association list (a Python dict, so keys are
unique), `version` the request's `schema_version`, `expected` is
`schema.get("version", 1)` and `allow_extras` is
`schema.get("allow_extras", False)`.  Returns `(ok, reasons)`. -/
def schema_check (features : List String) (payload : List (String × FVal))
    (version expected : ℤ) (allow_extras : Bool) : Bool × List String :=
  let keys := payload.map Prod.fst
  let mismatch : List String :=
    if version ≠ expected
    then ["SCHEMA_MISMATCH:" ++ toString version ++ "!=" ++ toString expected]
    else []
  let missing := py_sorted (features.filter (fun n => decide (n ∉ keys)))
  let missing_reason : List String :=
    if missing.isEmpty then [] else [fmt_feature_list "MISSING_FEATURES:" missing]
  let extras := py_sorted (keys.filter (fun k => decide (k ∉ features)))
  let extras_reason : List String :=
    if allow_extras then []
    else if extras.isEmpty then [] else [fmt_feature_list "EXTRA_FEATURES:" extras]
  let invalid := features.filterMap (fun n =>
    match payload.lookup n with
    | some v => if invalid_value v then some n else none
    | none => none)
  let invalid_reason : List String :=
    if invalid.isEmpty then []
    else [fmt_feature_list "INVALID_FEATURE_VALUES:" invalid]
  let reasons := mismatch ++ missing_reason ++ extras_reason ++ invalid_reason
  (reasons.isEmpty, reasons)

/-- Outcome of the schema gate at the top of the `/predict` handler:
either the handler returns the FALLBACK response immediately (no
classifier prediction is computed), or it proceeds to `predict_one`. -/
inductive PredictStage where
  | schemaFallback (reasons : List String)
  | classify
deriving DecidableEq

/-- The `/predict` handler's schema gate: on `ok` proceed to the
prediction pipeline; otherwise return FALLBACK with reasons
`[DATA_CONTRACT] + schema_reasons`. -/
def predict_schema_gate (features : List String) (payload : List (String × FVal))
    (version expected : ℤ) (allow_extras : Bool) : PredictStage :=
  if (schema_check features payload version expected allow_extras).1
  then PredictStage.classify
  else PredictStage.schemaFallback
    (REASON_DATA_CONTRACT :: (schema_check features payload version expected allow_extras).2)

/-- The fields of the FALLBACK response the `/predict` handler builds on
schema failure: `prediction = None`, empty prediction set, action
FALLBACK, the given reasons, no retrain trigger. -/
structure PredictResponseModel where
  prediction : Option String
  prediction_set : List String
  action_code : String
  reasons : List String
  retrain_triggered : Bool
deriving DecidableEq

/-- The schema-failure FALLBACK response of the `/predict` handler. -/
def schema_fallback_response (reasons : List String) : PredictResponseModel :=
  ⟨none, [], ACTION_FALLBACK, reasons, false⟩

theorem isEmpty_false_of_ne_nil {α : Type} {l : List α} (h : l ≠ []) :
    l.isEmpty = false := by
  cases l with
  | nil => exact absurd rfl h
  | cons a t => rfl

/-- C8 counterexample: with `allow_extras` enabled, an extra feature
carrying a null value is never examined (`_schema_check`'s invalid-value
loop iterates only over the bundle's features), so a request whose
provided value "z" is null still passes the gate and a classifier
prediction IS computed — no FALLBACK, no DATA_CONTRACT reason. -/
theorem claim_C8_counterexample :
    ([("a", FVal.num 1), ("z", FVal.null)].lookup "z" = some FVal.null)
    ∧ invalid_value FVal.null = true
    ∧ predict_schema_gate ["a"] [("a", FVal.num 1), ("z", FVal.null)] 1 1 true
        = PredictStage.classify := by
  refine ⟨?_, ?_, ?_⟩ <;> decide

/-- C8 (amended: the invalid-value check covers the provided values of the
bundle's schema features; an extra key's value is not examined — as the
counterexample shows, an allowed extra with an invalid value passes): if
the schema version differs, a required feature is missing, extras are
present while forbidden, or a provided schema-feature value is invalid
(null / bool / non-numeric / non-finite), then `_schema_check` fails and
the `/predict` handler returns the FALLBACK response without computing a
prediction: `prediction = None`, action FALLBACK, reasons starting with
DATA_CONTRACT followed by the structured sub-reasons, each feature-name
list truncated to 20 names with a "..." suffix when longer. -/
theorem claim_C8_schema_fallback (features : List String)
    (payload : List (String × FVal)) (version expected : ℤ) (allow_extras : Bool)
    (hP : version ≠ expected
      ∨ (∃ n ∈ features, n ∉ payload.map Prod.fst)
      ∨ (allow_extras = false ∧ ∃ k ∈ payload.map Prod.fst, k ∉ features)
      ∨ (∃ n ∈ features, ∃ v, payload.lookup n = some v ∧ invalid_value v = true)) :
    (schema_check features payload version expected allow_extras).1 = false
    ∧ predict_schema_gate features payload version expected allow_extras
        = PredictStage.schemaFallback (REASON_DATA_CONTRACT ::
            (schema_check features payload version expected allow_extras).2)
    ∧ (schema_fallback_response (REASON_DATA_CONTRACT ::
        (schema_check features payload version expected allow_extras).2)).prediction
        = none
    ∧ (schema_fallback_response (REASON_DATA_CONTRACT ::
        (schema_check features payload version expected allow_extras).2)).action_code
        = ACTION_FALLBACK
    ∧ (schema_fallback_response (REASON_DATA_CONTRACT ::
        (schema_check features payload version expected allow_extras).2)).reasons.head?
        = some REASON_DATA_CONTRACT
    ∧ (∀ (tag : String) (names : List String),
        (names.length ≤ 20 →
          fmt_feature_list tag names = tag ++ String.intercalate "," names)
        ∧ (20 < names.length →
          fmt_feature_list tag names
            = tag ++ String.intercalate "," (names.take 20) ++ "...")) := by
  have hsc : (schema_check features payload version expected allow_extras).2
      = (if version ≠ expected
          then ["SCHEMA_MISMATCH:" ++ toString version ++ "!=" ++ toString expected]
          else [])
        ++ (if (py_sorted (features.filter
              (fun n => decide (n ∉ payload.map Prod.fst)))).isEmpty
            then []
            else [fmt_feature_list "MISSING_FEATURES:"
              (py_sorted (features.filter
                (fun n => decide (n ∉ payload.map Prod.fst))))])
        ++ (if allow_extras then []
            else if (py_sorted ((payload.map Prod.fst).filter
                (fun k => decide (k ∉ features)))).isEmpty
            then []
            else [fmt_feature_list "EXTRA_FEATURES:"
              (py_sorted ((payload.map Prod.fst).filter
                (fun k => decide (k ∉ features))))])
        ++ (if (features.filterMap (fun n =>
              match payload.lookup n with
              | some v => if invalid_value v then some n else none
              | none => none)).isEmpty
            then []
            else [fmt_feature_list "INVALID_FEATURE_VALUES:"
              (features.filterMap (fun n =>
                match payload.lookup n with
                | some v => if invalid_value v then some n else none
                | none => none))]) := rfl
  have sorted_ne : ∀ (l : List String), l ≠ [] → (py_sorted l).isEmpty = false := by
    intro l hl
    apply isEmpty_false_of_ne_nil
    intro hcon
    apply hl
    have hp := List.perm_insertionSort (fun a b => str_le a b = true) l
    rw [py_sorted] at hcon
    rw [hcon] at hp
    exact hp.symm.eq_nil
  have hne : (schema_check features payload version expected allow_extras).2 ≠ [] := by
    rw [hsc]
    intro hcon
    have h4 := List.append_eq_nil.mp hcon
    have h3 := List.append_eq_nil.mp h4.1
    have h2 := List.append_eq_nil.mp h3.1
    rcases hP with hv | ⟨n, hn, hnk⟩ | ⟨hae, k, hk, hkf⟩ | ⟨n, hn, v, hv, hinv⟩
    · have hseg := h2.1
      rw [if_pos hv] at hseg
      simp at hseg
    · have hmem : n ∈ features.filter (fun n => decide (n ∉ payload.map Prod.fst)) :=
        List.mem_filter.mpr ⟨hn, by simpa using hnk⟩
      have hsne := sorted_ne _ (List.ne_nil_of_mem hmem)
      have hseg := h2.2
      rw [hsne] at hseg
      simp at hseg
    · have hmem : k ∈ (payload.map Prod.fst).filter (fun k => decide (k ∉ features)) :=
        List.mem_filter.mpr ⟨hk, by simpa using hkf⟩
      have hsne := sorted_ne _ (List.ne_nil_of_mem hmem)
      have hseg := h3.2
      rw [hae, hsne] at hseg
      simp at hseg
    · have hmem : n ∈ features.filterMap (fun n =>
          match payload.lookup n with
          | some v => if invalid_value v then some n else none
          | none => none) := by
        apply List.mem_filterMap.mpr
        exact ⟨n, hn, by simp [hv, hinv]⟩
      have hfne := isEmpty_false_of_ne_nil (List.ne_nil_of_mem hmem)
      have hseg := h4.2
      rw [hfne] at hseg
      simp at hseg
  have hok : (schema_check features payload version expected allow_extras).1
      = (schema_check features payload version expected allow_extras).2.isEmpty := rfl
  have hfalse : (schema_check features payload version expected allow_extras).1 = false := by
    rw [hok]
    exact isEmpty_false_of_ne_nil hne
  refine ⟨hfalse, ?_, rfl, rfl, rfl, ?_⟩
  · rw [predict_schema_gate, hfalse]
    simp
  · intro tag names
    constructor
    · intro hle
      rw [fmt_feature_list, List.take_of_length_le hle, if_neg (by omega)]
      simp
    · intro hgt
      rw [fmt_feature_list, if_pos hgt]

theorem claim_C8_witness :
    (schema_check ["a"] [("b", FVal.num 1)] 1 1 false).1 = false :=
  (claim_C8_schema_fallback ["a"] [("b", FVal.num 1)] 1 1 false
    (Or.inr (Or.inl ⟨"a", by decide, by decide⟩))).1
